import Mathlib

/-!
# Verification of the GRBL serial protocol client and jog command pipeline

Shallow embedding of the Python sources of the `emsd-capstone` repository
(`pi_controller_to_grbl.py`, `controller_to_gcode.py`, `go_set_home_test.py`,
`grbl_connection_test.py`).  Strings are modelled as `List Char`; Python
floats are modelled as exact rationals `ℚ`; the serial link is modelled by
the list of lines that arrive within a read window; a raised Python
exception is modelled by the `Except.error` branch of a result type.
-/

namespace Grbl

/-- The ASCII whitespace characters removed by the Python method `str.strip()`. -/
def isPySpace (c : Char) : Bool :=
  c = ' ' || c = '\t' || c = '\n' || c = '\r' || c = '\x0b' || c = '\x0c'

/-- Python `str.strip()` on a list of characters: drop whitespace from both
ends (model of `cmd.strip()` / `resp.strip()` in the sources). -/
def pyStrip (s : List Char) : List Char :=
  ((((s.dropWhile isPySpace).reverse).dropWhile isPySpace)).reverse

/-- A GRBL terminal response line: `resp.startswith("ok") or
resp.startswith("error")` in `GrblController.send_command`
(`pi_controller_to_grbl.py` line 74, `go_set_home_test.py` line 42). -/
def isTerminal (r : List Char) : Bool :=
  "ok".data.isPrefixOf r || "error".data.isPrefixOf r

/-- The read loop of `GrblController.send_command`
(`pi_controller_to_grbl.py` lines 66-78): each raw line read within the
2 s window is stripped, empty results are skipped, nonempty results are
appended, and the loop breaks right after appending the first terminal
line.  The argument is the list of raw lines the device delivers within
the window; a timeout is the case where the list is exhausted with no
terminal line, and the function still returns the collected list. -/
def collectResponses : List (List Char) → List (List Char)
  | [] => []
  | raw :: rest =>
    let resp := pyStrip raw
    if resp = [] then collectResponses rest
    else if isTerminal resp then [resp]
    else resp :: collectResponses rest

/-- The stripped nonempty lines of a raw window, in order. -/
def cleanedLines (incoming : List (List Char)) : List (List Char) :=
  (incoming.map pyStrip).filter (fun r => !r.isEmpty)

/-- Model of `axis_to_step` from `pi_controller_to_grbl.py` lines 86-93 (identical in
`controller_to_gcode.py` lines 17-25): map a joystick axis value to a step,
returning 0 inside the deadzone and `max_step * val` outside it. -/
def axis_to_step (val max_step deadzone : ℚ) : ℚ :=
  if |val| < deadzone then 0 else max_step * val

/-- Decimal digits of a natural number, most significant first (fuelled so
that the kernel can evaluate it). -/
def natDigitsAux : ℕ → ℕ → List Char
  | 0, _ => []
  | fuel + 1, m =>
    if m < 10 then [Nat.digitChar m]
    else natDigitsAux fuel (m / 10) ++ [Nat.digitChar (m % 10)]

/-- Decimal digit string of a natural number (`natDigits 0 = "0"`). -/
def natDigits (n : ℕ) : List Char := natDigitsAux (n + 1) n

/-- Left-pad a digit string with zeros up to width `p`. -/
def padZeros (p : ℕ) (ds : List Char) : List Char :=
  List.replicate (p - ds.length) '0' ++ ds

/-- Python fixed-point formatting `f"{q:.prec}f"` on an exact rational:
round `q * 10 ^ prec` to the nearest integer and print sign, integer part,
a dot and `prec` fractional digits.  (Python rounds exact ties on the
binary float to even; no value in this development sits on a tie, so the
choice of tie-break is immaterial here.) -/
def fmtFixed (q : ℚ) (prec : ℕ) : List Char :=
  let scaled : ℤ := round (q * (10 : ℚ) ^ prec)
  let n : ℕ := scaled.natAbs
  (if q < 0 then ['-'] else []) ++
    natDigits (n / 10 ^ prec) ++ '.' :: padZeros prec (natDigits (n % 10 ^ prec))

/-- Python `" ".join(parts)` on character lists. -/
def joinSp : List (List Char) → List Char
  | [] => []
  | [p] => p
  | p :: ps => p ++ ' ' :: joinSp ps

/-- The jog line construction of `pi_controller_to_grbl.py` lines 150-160
(identically `controller_to_gcode.py` lines 75-87): when all three deltas
are zero no command is produced; otherwise the parts list starts with
`$J=G91`, gets one `X`/`Y`/`Z` token per non-zero delta formatted to three
decimals, then the feed token formatted to one decimal, joined by single
spaces. -/
def formatJog (dx dy dz feed : ℚ) : Option (List Char) :=
  if dx ≠ 0 ∨ dy ≠ 0 ∨ dz ≠ 0 then
    some (joinSp (["$J=G91".data] ++
      (if dx ≠ 0 then ['X' :: fmtFixed dx 3] else []) ++
      (if dy ≠ 0 then ['Y' :: fmtFixed dy 3] else []) ++
      (if dz ≠ 0 then ['Z' :: fmtFixed dz 3] else []) ++
      ['F' :: fmtFixed feed 1]))
  else none

/-- Split off the text before the first occurrence of `sep` in `s`:
`some (before, after)` when `sep` occurs, `none` otherwise.  Building block
for the Python test `sep in s` and for `s.split(sep)`. -/
def splitFirst (sep : List Char) : List Char → Option (List Char × List Char)
  | [] => none
  | c :: r =>
    if sep.isPrefixOf (c :: r) then some ([], (c :: r).drop sep.length)
    else
      match splitFirst sep r with
      | none => none
      | some (pre, post) => some (c :: pre, post)

/-- The Python substring test `sep in s` (for nonempty `sep`). -/
def occursIn (sep s : List Char) : Bool := (splitFirst sep s).isSome

/-- Fuelled worker for `pySplit`. -/
def pySplitAux (sep : List Char) : ℕ → List Char → List (List Char)
  | 0, s => [s]
  | fuel + 1, s =>
    match splitFirst sep s with
    | none => [s]
    | some (pre, post) => pre :: pySplitAux sep fuel post

/-- Python `s.split(sep)` for a nonempty separator: the segments between
consecutive non-overlapping occurrences of `sep`, scanned left to right. -/
def pySplit (sep s : List Char) : List (List Char) := pySplitAux sep (s.length + 1) s

/-- Numeric value of a list of decimal digit characters (empty list is 0). -/
def natOfDigits (ds : List Char) : ℕ :=
  ds.foldl (fun acc c => 10 * acc + (c.toNat - 48)) 0

/-- Python `float(s)` restricted to the plain fixed-point notation GRBL
emits: an optional sign, then digits with an optional decimal point, at
least one digit in total.  `none` models a raised `ValueError`.  The value
is assembled with `mkRat` so it is exact. -/
def pyFloat (s : List Char) : Option ℚ :=
  let signed : ℤ × List Char :=
    match s with
    | '-' :: r => (-1, r)
    | '+' :: r => (1, r)
    | r => (1, r)
  let ip := signed.2.takeWhile Char.isDigit
  match signed.2.dropWhile Char.isDigit with
  | [] => if ip.isEmpty then none else some (mkRat (signed.1 * natOfDigits ip) 1)
  | '.' :: fp =>
    if fp.all Char.isDigit && !(ip.isEmpty && fp.isEmpty) then
      some (mkRat (signed.1 * (natOfDigits ip * 10 ^ fp.length + natOfDigits fp))
        (10 ^ fp.length))
    else none
  | _ => none

/-- Character class `\w` of the status regex (ASCII fragment, which covers
every GRBL state word). -/
def isWordCh (c : Char) : Bool := c.isAlphanum || c = '_'

/-- Character class `[-\d.]` of the status regex. -/
def isNumCh (c : Char) : Bool := c.isDigit || c = '-' || c = '.'

/-- The status-report parser of `grbl_connection_test.py` lines 229-231:
`re.match` of `<(\w+)\|MPos:([-\d.]+),([-\d.]+),([-\d.]+)` against the
line.  Greedy character-class runs followed by literals not in the class
make the regex deterministic, so maximal-munch scanning is an exact model.
Returns the four captured groups (state, x, y, z); trailing text after the
third number is ignored, as `re.match` only anchors the start. -/
def parseStatus (s : List Char) : Option (List Char × List Char × List Char × List Char) :=
  match s with
  | '<' :: r =>
    let st := r.takeWhile isWordCh
    if st.isEmpty then none
    else
      match r.dropWhile isWordCh with
      | '|' :: r2 =>
        if "MPos:".data.isPrefixOf r2 then
          let r3 := r2.drop 5
          let x := r3.takeWhile isNumCh
          if x.isEmpty then none
          else
            match r3.dropWhile isNumCh with
            | ',' :: r4 =>
              let y := r4.takeWhile isNumCh
              if y.isEmpty then none
              else
                match r4.dropWhile isNumCh with
                | ',' :: r5 =>
                  let z := r5.takeWhile isNumCh
                  if z.isEmpty then none else some (st, x, y, z)
                | _ => none
            | _ => none
        else none
      | _ => none
  | _ => none

/-- The Python exceptions `GrblController.get_current_z` can raise. -/
inductive PyErr where
  | timeout
  | valueError
  | indexError
deriving DecidableEq

/-- Equality of modelled Python results is decidable. -/
instance : DecidableEq (Except PyErr ℚ) := fun a b =>
  match a, b with
  | .ok x, .ok y => decidable_of_iff (x = y) (by simp)
  | .error e, .error f => decidable_of_iff (e = f) (by simp)
  | .ok _, .error _ => isFalse (by simp)
  | .error _, .ok _ => isFalse (by simp)

/-- The coordinate extraction of `get_current_z` for one tagged line
(`go_set_home_test.py` lines 54-61): `line.split(tag)[1].split("|")[0]`,
then `float(s.split(",")[2])`.  A missing list index models `IndexError`,
an unparseable float models `ValueError`. -/
def extractCoordZ (tag line : List Char) : Except PyErr ℚ :=
  match pySplit tag line with
  | _ :: s :: _ =>
    let t := (pySplit ['|'] s).headD []
    match (pySplit [','] t).get? 2 with
    | none => .error .indexError
    | some zs =>
      match pyFloat zs with
      | none => .error .valueError
      | some z => .ok z
  | _ => .error .indexError

/-- Model of `GrblController.get_current_z` (`go_set_home_test.py` lines 48-64):
scan the lines arriving within the 1 s window; on the first line containing
`WPos:` (or, failing that on the same line, `MPos:`) extract and return the
third coordinate; if the window closes with no such line, raise
`TimeoutError` — modelled by `Except.error PyErr.timeout`. -/
def getCurrentZ : List (List Char) → Except PyErr ℚ
  | [] => .error .timeout
  | l :: ls =>
    if occursIn "WPos:".data l then extractCoordZ "WPos:".data l
    else if occursIn "MPos:".data l then extractCoordZ "MPos:".data l
    else getCurrentZ ls

/-- Observable protocol actions of the alarm-handling branch of
`test_status_query`. -/
inductive GAction where
  | unlock
  | requery
  | note (st : List Char)
deriving DecidableEq

/-- Is this action the `$X` unlock send? -/
def isUnlock : GAction → Bool
  | .unlock => true
  | _ => false

/-- Is this action the `?` status re-query? -/
def isRequery : GAction → Bool
  | .requery => true
  | _ => false

/-- Alarm handling for one received status-query line
(`grbl_connection_test.py` lines 236-256): if the line parses and its state
is `Alarm`, send `$X`; if the `$X` response contains a line with `ok` in
it, re-query status once and log (only) the state of each line of the
re-query response that parses.  No unlock is ever issued while processing
the re-query response. -/
def alarmHandleLine (unlockResp requeryLines : List (List Char)) (l : List Char) :
    List GAction :=
  match parseStatus l with
  | none => []
  | some (st, _, _, _) =>
    if st = "Alarm".data then
      GAction.unlock ::
        (if unlockResp.any (fun r => occursIn "ok".data r) then
          GAction.requery ::
            requeryLines.filterMap (fun l2 => (parseStatus l2).map (fun q => GAction.note q.1))
        else [])
    else []

/-- The whole alarm-handling pass of `test_status_query`: the `for line in
lines` loop applied to every line of the status-query response, with the
responses of the environment to `$X` and to the re-query fixed. -/
def alarmActions (unlockResp requeryLines : List (List Char)) :
    List (List Char) → List GAction
  | [] => []
  | l :: ls => alarmHandleLine unlockResp requeryLines l ++ alarmActions unlockResp requeryLines ls

/-- Does this line parse as a status report whose state is `Alarm`? -/
def statusIsAlarm (l : List Char) : Bool :=
  match parseStatus l with
  | some (st, _, _, _) => st = "Alarm".data
  | none => false

/-- The rate-limited jog loop of `pi_controller_to_grbl.py` lines 142-165
(same shape in `go_set_home_test.py` lines 140-152): state is
`last_cmd_time`; a tick `(now, dx, dy, dz)` emits a command exactly when
`now - last_cmd_time ≥ interval` and some delta is non-zero, and only an
actual emission updates `last_cmd_time` (to `now`).  Returns the emission
times in order. -/
def jogLoop (interval : ℚ) : ℚ → List (ℚ × ℚ × ℚ × ℚ) → List ℚ
  | _, [] => []
  | last, (now, dx, dy, dz) :: ts =>
    if interval ≤ now - last ∧ (dx ≠ 0 ∨ dy ≠ 0 ∨ dz ≠ 0) then
      now :: jogLoop interval now ts
    else jogLoop interval last ts

/-- Membership of a time in the half-open window `[a, a + i)`. -/
def inWindow (a i t : ℚ) : Bool := decide (a ≤ t ∧ t < a + i)

/-- Trigger normalisation of `controller_to_gcode.py` lines 67-68:
`(raw + 1) / 2 if raw < 0 else raw`. -/
def normTrigger (raw : ℚ) : ℚ := if raw < 0 then (raw + 1) / 2 else raw

/-- The Z mapping from the two triggers, `controller_to_gcode.py` lines
67-73: normalise both triggers, take `max_step * (rt_val - lt_val)`, then
zero the result if its absolute value is under the deadzone. -/
def triggerDz (lt rt max_step deadzone : ℚ) : ℚ :=
  let dz := max_step * (normTrigger rt - normTrigger lt)
  if |dz| < deadzone then 0 else dz

/-- Constant `DEADZONE` of `controller_to_gcode.py` (0.4). -/
def gcodeDeadzone : ℚ := 2 / 5

/-- Constant `MAX_STEP_MM` of `controller_to_gcode.py` (1.0). -/
def gcodeMaxStep : ℚ := 1

/-- Outcome of one press of the go-home button (`go_set_home_test.py`
lines 116-134): with no cached home the operator message `No HOME set
yet.` is printed and nothing is sent; with a cached home the absolute
move line is formatted from the cached value and sent. -/
def goHomeStep (home_z : Option ℚ) : Except (List Char) (List Char) :=
  match home_z with
  | none => .error "No HOME set yet.".data
  | some z => .ok ("G90 G0 Z".data ++ fmtFixed z 3 ++ "  ; move to home Z (absolute)".data)

/-- The wire payload of `send_command` (`pi_controller_to_grbl.py` line 60,
`go_set_home_test.py` line 32): `cmd.strip() + "\n"`. -/
def sendPayload (cmd : List Char) : List Char := pyStrip cmd ++ ['\n']

/-- Serial writes caused by one press of the go-home button: empty when no
home is cached, otherwise the single `send_command` payload of the
formatted absolute move. -/
def goHomeWire (home_z : Option ℚ) : List (List Char) :=
  match goHomeStep home_z with
  | .error _ => []
  | .ok cmd => [sendPayload cmd]

/-! ## Helper lemmas -/

/-- A list is non-nil exactly when `isEmpty` is `false`. -/
theorem isEmptyFalseOfNe {l : List Char} (h : l ≠ []) : l.isEmpty = false := by
  cases l with
  | nil => exact absurd rfl h
  | cons a as => rfl

/-- Greedy class run: `takeWhile` over a satisfying block stops exactly at a
non-satisfying delimiter. -/
theorem takeWhile_stop {p : Char → Bool} {a : List Char} {d : Char} {t : List Char}
    (ha : ∀ c ∈ a, p c = true) (hd : p d = false) :
    (a ++ d :: t).takeWhile p = a := by
  rw [List.takeWhile_append_of_pos ha]
  simp [List.takeWhile_cons, hd]

/-- Greedy class run: `dropWhile` over a satisfying block lands exactly on a
non-satisfying delimiter. -/
theorem dropWhile_stop {p : Char → Bool} {a : List Char} {d : Char} {t : List Char}
    (ha : ∀ c ∈ a, p c = true) (hd : p d = false) :
    (a ++ d :: t).dropWhile p = d :: t := by
  rw [List.dropWhile_append_of_pos ha]
  simp [List.dropWhile_cons, hd]

/-- Final greedy class run: a trailing remainder that is empty or starts
outside the class leaves the run intact. -/
theorem takeWhile_end {p : Char → Bool} {z rest : List Char}
    (hz : ∀ c ∈ z, p c = true)
    (hrest : rest = [] ∨ ∃ d t, rest = d :: t ∧ p d = false) :
    (z ++ rest).takeWhile p = z := by
  rcases hrest with rfl | ⟨d, t, rfl, hd⟩
  · rw [List.takeWhile_append_of_pos hz]
    simp
  · exact takeWhile_stop hz hd

/-- Every list is a prefix of itself extended on the right. -/
theorem isPrefixOfAppendSelf : ∀ a b : List Char, a.isPrefixOf (a ++ b) = true := by
  intro a b
  induction a with
  | nil => simp [List.isPrefixOf]
  | cons c cs ih => simp [List.isPrefixOf, ih]

/-- Dropping the length of the left block of an append returns the right
block. -/
theorem dropLenAppend : ∀ a b : List Char, (a ++ b).drop a.length = b := by
  intro a b
  induction a with
  | nil => rfl
  | cons c cs ih => simp [ih]

/-! ## Claim theorems -/

/-- The first-terminal characterisation of the `send_command` read loop,
proved by induction over the arriving raw lines. -/
theorem collect_eq_split (incoming : List (List Char)) :
    collectResponses incoming =
      (cleanedLines incoming).takeWhile (fun r => !isTerminal r) ++
        ((cleanedLines incoming).dropWhile (fun r => !isTerminal r)).take 1 := by
  induction incoming with
  | nil => rfl
  | cons raw rest ih =>
    by_cases h0 : pyStrip raw = []
    · simpa [collectResponses, cleanedLines, h0] using ih
    · by_cases ht : isTerminal (pyStrip raw)
      · simp [collectResponses, cleanedLines, h0, ht, isEmptyFalseOfNe h0]
      · simpa [collectResponses, cleanedLines, h0, ht, isEmptyFalseOfNe h0] using ih

/-- Claim C1: for every command exchange, the read loop of `send_command`
collects the stripped nonempty response lines in order and stops at the
first line whose prefix is `ok` or `error` (that line included); when no
terminal line arrives within the window the whole partial (possibly empty)
sequence of collected lines is returned — the model is a total function,
so no exception is raised. -/
theorem send_command_reads_until_terminal (incoming : List (List Char)) :
    collectResponses incoming =
      (cleanedLines incoming).takeWhile (fun r => !isTerminal r) ++
        ((cleanedLines incoming).dropWhile (fun r => !isTerminal r)).take 1 ∧
    ((∀ r ∈ incoming, isTerminal (pyStrip r) = false) →
      collectResponses incoming = cleanedLines incoming) := by
  refine ⟨collect_eq_split incoming, fun hall => ?_⟩
  rw [collect_eq_split incoming]
  have h1 : ∀ r ∈ cleanedLines incoming, (!isTerminal r) = true := by
    intro r hr
    simp only [cleanedLines, List.mem_filter, List.mem_map] at hr
    obtain ⟨⟨raw, hraw, rfl⟩, _⟩ := hr
    simp [hall raw hraw]
  rw [List.takeWhile_eq_self_iff.2 h1, List.dropWhile_eq_nil_iff.2 (by simpa using h1)]
  simp

/-- Witness for C1 at two concrete windows: one where `ok` terminates the
exchange early and one timed-out window with no terminal line. -/
theorem send_command_reads_until_terminal_witness :
    collectResponses ["Grbl 1.1".data, "ok".data, "junk".data] =
      ["Grbl 1.1".data, "ok".data] ∧
    collectResponses ["status".data, "info".data] = ["status".data, "info".data] := by
  constructor
  · have h := (send_command_reads_until_terminal
      ["Grbl 1.1".data, "ok".data, "junk".data]).1
    rw [h]; decide
  · exact (send_command_reads_until_terminal ["status".data, "info".data]).2 (by decide)

/-- Claim C3: the continuous-mode axis mapping returns exactly 0 inside the
deadzone and exactly `max_step * val` outside it, with no further
clamping. -/
theorem axis_to_step_deadzone_law (v m d : ℚ) :
    (|v| < d → axis_to_step v m d = 0) ∧ (d ≤ |v| → axis_to_step v m d = m * v) := by
  unfold axis_to_step
  exact ⟨fun h => if_pos h, fun h => if_neg (not_lt.2 h)⟩

/-- Witness for C3 at `v = 1/10` (inside the deadzone 1/5) and `v = 1/2`
(outside it). -/
theorem axis_to_step_deadzone_law_witness :
    axis_to_step (1/10) 1 (1/5) = 0 ∧ axis_to_step (1/2) 1 (1/5) = 1 * (1/2) :=
  ⟨(axis_to_step_deadzone_law (1/10) 1 (1/5)).1 (by rw [abs_of_pos (by norm_num)]; norm_num),
   (axis_to_step_deadzone_law (1/2) 1 (1/5)).2 (by rw [abs_of_pos (by norm_num)]; norm_num)⟩

/-- Every emission time of the jog loop is at least one interval after the
`last_cmd_time` the loop started from. -/
theorem jogLoop_mem_lower (i : ℚ) (hi : 0 ≤ i) :
    ∀ (ts : List (ℚ × ℚ × ℚ × ℚ)) (last t : ℚ), t ∈ jogLoop i last ts → last + i ≤ t := by
  intro ts
  induction ts with
  | nil => intro last t ht; simp [jogLoop] at ht
  | cons tick rest ih =>
    intro last t ht
    obtain ⟨now, dx, dy, dz⟩ := tick
    by_cases hc : i ≤ now - last ∧ (dx ≠ 0 ∨ dy ≠ 0 ∨ dz ≠ 0)
    · rw [jogLoop, if_pos hc] at ht
      rcases List.mem_cons.1 ht with rfl | ht2
      · linarith [hc.1]
      · have := ih now t ht2
        linarith [hc.1]
    · rw [jogLoop, if_neg hc] at ht
      exact ih last t ht

/-- Consecutive emissions of the jog loop are separated by at least the
command interval. -/
theorem jogLoop_chain (i : ℚ) :
    ∀ (ts : List (ℚ × ℚ × ℚ × ℚ)) (last : ℚ),
      List.Chain' (fun t₁ t₂ => t₁ + i ≤ t₂) (last :: jogLoop i last ts) := by
  intro ts
  induction ts with
  | nil => intro last; simp [jogLoop]
  | cons tick rest ih =>
    intro last
    obtain ⟨now, dx, dy, dz⟩ := tick
    by_cases hc : i ≤ now - last ∧ (dx ≠ 0 ∨ dy ≠ 0 ∨ dz ≠ 0)
    · rw [jogLoop, if_pos hc]
      exact List.chain'_cons.2 ⟨by linarith [hc.1], ih now⟩
    · rw [jogLoop, if_neg hc]
      exact ih last

/-- For a positive interval, any half-open window of one interval length
contains at most one emission of the jog loop. -/
theorem jogLoop_window_aux (i : ℚ) (hi : 0 < i) (a : ℚ) :
    ∀ (ts : List (ℚ × ℚ × ℚ × ℚ)) (last : ℚ),
      ((jogLoop i last ts).countP (inWindow a i)) ≤ 1 := by
  intro ts
  induction ts with
  | nil => intro last; simp [jogLoop]
  | cons tick rest ih =>
    intro last
    obtain ⟨now, dx, dy, dz⟩ := tick
    by_cases hc : i ≤ now - last ∧ (dx ≠ 0 ∨ dy ≠ 0 ∨ dz ≠ 0)
    · rw [jogLoop, if_pos hc]
      by_cases hw : a ≤ now ∧ now < a + i
      · have hz : (jogLoop i now rest).countP (inWindow a i) = 0 := by
          rw [List.countP_eq_zero]
          intro t ht
          have hlb := jogLoop_mem_lower i (le_of_lt hi) rest now t ht
          simp only [inWindow, decide_eq_true_eq, not_and, not_lt]
          intro _
          linarith [hw.1]
        have hd : inWindow a i now = true := by
          simp [inWindow, hw]
        simp [List.countP_cons, hz, hd]
      · have hd : inWindow a i now = false := by
          simpa [inWindow] using hw
        simp only [List.countP_cons, hd, if_false]
        simpa using ih now
    · rw [jogLoop, if_neg hc]
      exact ih last

/-- Claim C6: in the rate-limited jog loop a command is emitted at a tick
only when a full command interval has elapsed since the last emission and
`last_cmd_time` advances only on emission; consequently consecutive
emission times are separated by at least the interval, and any half-open
window of one interval length contains at most one emission, regardless of
how many ticks occur. -/
theorem rate_limiter_at_most_one_per_window (i last a : ℚ) (ts : List (ℚ × ℚ × ℚ × ℚ)) :
    List.Chain' (fun t₁ t₂ => t₁ + i ≤ t₂) (jogLoop i last ts) ∧
    ((jogLoop i last ts).countP (inWindow a i)) ≤ 1 := by
  constructor
  · exact (jogLoop_chain i ts last).tail
  · by_cases hi : 0 < i
    · exact jogLoop_window_aux i hi a ts last
    · have hz : (jogLoop i last ts).countP (inWindow a i) = 0 := by
        rw [List.countP_eq_zero]
        intro t _
        simp only [inWindow, decide_eq_true_eq, not_and, not_lt]
        intro hat
        have : i ≤ 0 := not_lt.1 hi
        linarith
      simp [hz]

/-- Claim C8: pressing go-home with no cached home reports `No HOME set
yet.` to the operator and writes nothing on the serial wire; with a cached
home it formats the absolute move `G90 G0 Z…` from the cached value and
sends exactly that command. -/
theorem go_home_spec :
    (goHomeStep none = .error "No HOME set yet.".data ∧ goHomeWire none = []) ∧
    (∀ z : ℚ,
      goHomeStep (some z) =
        .ok ("G90 G0 Z".data ++ fmtFixed z 3 ++ "  ; move to home Z (absolute)".data) ∧
      goHomeWire (some z) =
        [sendPayload ("G90 G0 Z".data ++ fmtFixed z 3 ++ "  ; move to home Z (absolute)".data)]) :=
  ⟨⟨rfl, rfl⟩, fun _ => ⟨rfl, rfl⟩⟩

/-- Claim C9: trigger readings are normalised by `(raw + 1) / 2` when
negative and taken as-is otherwise; the Z contribution is
`max_step * (rt_val - lt_val)` with the deadzone test re-applied to that
result, so a sub-deadzone difference yields exactly 0 (with the configured
`MAX_STEP_MM = 1` the tested quantity is exactly the normalised trigger
difference). -/
theorem trigger_z_mapping (lt rt : ℚ) :
    (lt < 0 → normTrigger lt = (lt + 1) / 2) ∧
    (0 ≤ lt → normTrigger lt = lt) ∧
    (|normTrigger rt - normTrigger lt| < gcodeDeadzone →
      triggerDz lt rt gcodeMaxStep gcodeDeadzone = 0) ∧
    (gcodeDeadzone ≤ |normTrigger rt - normTrigger lt| →
      triggerDz lt rt gcodeMaxStep gcodeDeadzone =
        gcodeMaxStep * (normTrigger rt - normTrigger lt)) := by
  have hms : gcodeMaxStep = 1 := rfl
  refine ⟨fun h => if_pos h, fun h => if_neg (not_lt.2 h), fun h => ?_, fun h => ?_⟩
  · unfold triggerDz
    rw [hms, one_mul]
    exact if_pos h
  · unfold triggerDz
    rw [hms, one_mul]
    exact if_neg (not_lt.2 h)

/-- Witness for C9 at `lt = -1` (fully released on [-1,1] hardware,
normalised to 0) and `rt = 1` (fully pressed): the difference 1 clears the
deadzone and the Z delta is the scaled difference. -/
theorem trigger_z_mapping_witness :
    triggerDz (-1) 1 gcodeMaxStep gcodeDeadzone =
      gcodeMaxStep * (normTrigger 1 - normTrigger (-1)) :=
  (trigger_z_mapping (-1) 1).2.2.2 (by
    unfold normTrigger gcodeDeadzone
    norm_num)

/-- Unfolding of the jog line builder away from the all-zero case: the
joined parts are the fixed prefix, one token per non-zero axis in X, Y, Z
order, and the feed token. -/
theorem formatJog_eq (dx dy dz feed : ℚ) (h : dx ≠ 0 ∨ dy ≠ 0 ∨ dz ≠ 0) :
    formatJog dx dy dz feed = some ("$J=G91".data ++
      (if dx ≠ 0 then ' ' :: 'X' :: fmtFixed dx 3 else []) ++
      (if dy ≠ 0 then ' ' :: 'Y' :: fmtFixed dy 3 else []) ++
      (if dz ≠ 0 then ' ' :: 'Z' :: fmtFixed dz 3 else []) ++
      ' ' :: 'F' :: fmtFixed feed 1) := by
  rw [formatJog, if_pos h]
  by_cases h1 : dx = 0 <;> by_cases h2 : dy = 0 <;> by_cases h3 : dz = 0
  · exact absurd h (by simp [h1, h2, h3])
  all_goals simp [h1, h2, h3, joinSp, List.append_assoc]

/-- Concrete formatting fact: one half prints as 0.500. -/
theorem fmtFixed_half : fmtFixed (1/2) 3 = "0.500".data := by
  rw [fmtFixed, if_neg (by norm_num),
    show round ((1/2 : ℚ) * (10 : ℚ) ^ 3) = 500 from by norm_num [round_eq]]
  decide

/-- Concrete formatting fact: minus three tenths prints as -0.300. -/
theorem fmtFixed_negThreeTenths : fmtFixed (-3/10) 3 = "-0.300".data := by
  rw [fmtFixed, if_pos (by norm_num),
    show round ((-3/10 : ℚ) * (10 : ℚ) ^ 3) = -300 from by norm_num [round_eq]]
  decide

/-- Concrete formatting fact: 500 prints as 500.0 at one decimal place. -/
theorem fmtFixed_fiveHundred : fmtFixed 500 1 = "500.0".data := by
  rw [fmtFixed, if_neg (by norm_num),
    show round ((500 : ℚ) * (10 : ℚ) ^ 1) = 5000 from by norm_num [round_eq]]
  decide

/-- Claim C2: no jog line is produced when all three deltas are zero;
otherwise the line is the fixed prefix `$J=G91`, one token per non-zero
axis in X, Y, Z order formatted to three decimals, and a trailing feed
token formatted to one decimal; in particular
`formatJog 0.5 0 (-0.3) 500` is exactly `$J=G91 X0.500 Z-0.300 F500.0`. -/
theorem jog_format_spec :
    (∀ dx dy dz feed : ℚ,
      (formatJog dx dy dz feed = none ↔ dx = 0 ∧ dy = 0 ∧ dz = 0) ∧
      (dx ≠ 0 ∨ dy ≠ 0 ∨ dz ≠ 0 →
        formatJog dx dy dz feed = some ("$J=G91".data ++
          (if dx ≠ 0 then ' ' :: 'X' :: fmtFixed dx 3 else []) ++
          (if dy ≠ 0 then ' ' :: 'Y' :: fmtFixed dy 3 else []) ++
          (if dz ≠ 0 then ' ' :: 'Z' :: fmtFixed dz 3 else []) ++
          ' ' :: 'F' :: fmtFixed feed 1))) ∧
    formatJog (1/2) 0 (-3/10) 500 = some "$J=G91 X0.500 Z-0.300 F500.0".data := by
  constructor
  · intro dx dy dz feed
    refine ⟨⟨fun hn => ?_, fun hall => ?_⟩, formatJog_eq dx dy dz feed⟩
    · by_cases h : dx ≠ 0 ∨ dy ≠ 0 ∨ dz ≠ 0
      · rw [formatJog, if_pos h] at hn
        exact absurd hn (by simp)
      · push_neg at h
        exact h
    · obtain ⟨e1, e2, e3⟩ := hall
      simp [formatJog, e1, e2, e3]
  · rw [formatJog_eq (1/2) 0 (-3/10) 500 (by norm_num),
      if_pos (show (1/2 : ℚ) ≠ 0 from by norm_num),
      if_neg (show ¬((0 : ℚ) ≠ 0) from by norm_num),
      if_pos (show (-3/10 : ℚ) ≠ 0 from by norm_num),
      fmtFixed_half, fmtFixed_negThreeTenths, fmtFixed_fiveHundred]
    decide

/-- Witness for C2: the jog builder applied at dx = 1 with the other axes
zero, via the general shape equation. -/
theorem jog_format_spec_witness :
    formatJog 1 0 0 100 = some ("$J=G91".data ++
      (if (1 : ℚ) ≠ 0 then ' ' :: 'X' :: fmtFixed 1 3 else []) ++
      (if (0 : ℚ) ≠ 0 then ' ' :: 'Y' :: fmtFixed 0 3 else []) ++
      (if (0 : ℚ) ≠ 0 then ' ' :: 'Z' :: fmtFixed 0 3 else []) ++
      ' ' :: 'F' :: fmtFixed 100 1) :=
  (jog_format_spec.1 1 0 0 100).2 (Or.inl (by norm_num))

/-- Dropping-while over an append whose left block does not vanish keeps
the right block untouched. -/
theorem dropWhileNeNilAppend {p : Char → Bool} {s : List Char} (t : List Char)
    (h : s.dropWhile p ≠ []) : (s ++ t).dropWhile p = s.dropWhile p ++ t := by
  induction s with
  | nil => exact absurd rfl h
  | cons c cs ih =>
    by_cases hc : p c
    · rw [List.dropWhile_cons_of_pos hc] at h
      rw [List.cons_append, List.dropWhile_cons_of_pos hc, List.dropWhile_cons_of_pos hc,
        ih h]
    · rw [List.cons_append, List.dropWhile_cons_of_neg hc, List.dropWhile_cons_of_neg hc,
        List.cons_append]

/-- Python strip ignores any all-whitespace lead and trail around a
command. -/
theorem pyStrip_append_ws {lead core trail : List Char}
    (hl : ∀ c ∈ lead, isPySpace c = true) (ht : ∀ c ∈ trail, isPySpace c = true) :
    pyStrip (lead ++ core ++ trail) = pyStrip core := by
  unfold pyStrip
  rw [List.append_assoc, List.dropWhile_append_of_pos hl]
  by_cases h : core.dropWhile isPySpace = []
  · have hcorews : ∀ c ∈ core, isPySpace c = true := List.dropWhile_eq_nil_iff.1 h
    rw [List.dropWhile_append_of_pos hcorews, List.dropWhile_eq_nil_iff.2 ht, h]
  · rw [dropWhileNeNilAppend trail h, List.reverse_append,
      List.dropWhile_append_of_pos (fun c hc => ht c (List.mem_reverse.1 hc))]

/-- Claim C10: the wire payload of `send_command` is exactly
`strip(cmd) + "\n"`; surrounding whitespace (including a caller-supplied
newline) never changes the bytes on the wire, so two commands equal up to
surrounding whitespace produce identical payloads. -/
theorem send_payload_framing :
    (∀ cmd : List Char, sendPayload cmd = pyStrip cmd ++ ['\n']) ∧
    (∀ lead core trail : List Char, (∀ c ∈ lead, isPySpace c = true) →
      (∀ c ∈ trail, isPySpace c = true) →
      sendPayload (lead ++ core ++ trail) = sendPayload core) ∧
    (∀ c₁ c₂ : List Char, pyStrip c₁ = pyStrip c₂ → sendPayload c₁ = sendPayload c₂) := by
  refine ⟨fun cmd => rfl, fun lead core trail hl ht => ?_, fun a b h => ?_⟩
  · unfold sendPayload
    rw [pyStrip_append_ws hl ht]
  · unfold sendPayload
    rw [h]

/-- Witness for C10: a command wrapped in spaces and a trailing newline
produces the same wire bytes as the bare command. -/
theorem send_payload_framing_witness :
    sendPayload (" ".data ++ "G0 X0".data ++ " \n".data) = sendPayload "G0 X0".data :=
  send_payload_framing.2.1 " ".data "G0 X0".data " \n".data (by decide) (by decide)

/-- Counterexample to claim C5 as stated: a read window whose lines contain
no status report makes `get_current_z` raise `TimeoutError` (the
`Except.error` branch), rather than returning an empty "no status
available" result. -/
theorem status_no_parse_counterexample :
    getCurrentZ ["ok".data] = .error .timeout := by decide

/-- A successful Z read always comes from an actual received line carrying
a position tag: the value is extracted from the first tagged line of the
window, so no position is ever fabricated. -/
theorem getCurrentZ_ok_src :
    ∀ (lines : List (List Char)) (q : ℚ), getCurrentZ lines = .ok q →
      ∃ l ∈ lines,
        (occursIn "WPos:".data l = true ∧ extractCoordZ "WPos:".data l = .ok q) ∨
        (occursIn "WPos:".data l = false ∧ occursIn "MPos:".data l = true ∧
          extractCoordZ "MPos:".data l = .ok q) := by
  intro lines
  induction lines with
  | nil => intro q h; simp [getCurrentZ] at h
  | cons l ls ih =>
    intro q h
    rw [getCurrentZ] at h
    by_cases hw : occursIn "WPos:".data l = true
    · rw [if_pos hw] at h
      exact ⟨l, List.mem_cons_self l ls, Or.inl ⟨hw, h⟩⟩
    · rw [if_neg hw] at h
      by_cases hm : occursIn "MPos:".data l = true
      · rw [if_pos hm] at h
        exact ⟨l, List.mem_cons_self l ls,
          Or.inr ⟨Bool.not_eq_true _ ▸ eq_false_of_ne_true hw, hm, h⟩⟩
      · rw [if_neg hm] at h
        obtain ⟨m, hmem, hcase⟩ := ih q h
        exact ⟨m, List.mem_cons_of_mem l hmem, hcase⟩

/-- Claim C5 (amended): a status query whose response contains no line with
`WPos:` or `MPos:` within the read window raises `TimeoutError`; a tagged
but malformed status line instead raises `ValueError` (coordinate that is
not a float) or `IndexError` (fewer than three coordinates) at that line —
all surfaced as exceptions the save-home caller catches and reports, never
as a result; and any successfully returned position is extracted from an
actual received tagged line, never fabricated. -/
theorem status_failure_amended :
    (∀ lines : List (List Char),
      (∀ l ∈ lines, occursIn "WPos:".data l = false ∧ occursIn "MPos:".data l = false) →
      getCurrentZ lines = .error .timeout) ∧
    getCurrentZ ["<Idle|MPos:abc,def,ghi>".data] = .error .valueError ∧
    getCurrentZ ["<Idle|MPos:1.000>".data] = .error .indexError ∧
    (∀ (lines : List (List Char)) (q : ℚ), getCurrentZ lines = .ok q →
      ∃ l ∈ lines,
        (occursIn "WPos:".data l = true ∧ extractCoordZ "WPos:".data l = .ok q) ∨
        (occursIn "WPos:".data l = false ∧ occursIn "MPos:".data l = true ∧
          extractCoordZ "MPos:".data l = .ok q)) := by
  refine ⟨?_, by decide, by decide, getCurrentZ_ok_src⟩
  intro lines h
  induction lines with
  | nil => rfl
  | cons l ls ih =>
    have hl := h l (List.mem_cons_self l ls)
    rw [getCurrentZ, if_neg (by simp [hl.1]), if_neg (by simp [hl.2])]
    exact ih fun m hm => h m (List.mem_cons_of_mem l hm)

/-- Witness for C5 (amended): the timeout conjunct applied at a window
holding only a banner line, and the no-fabrication conjunct applied at a
window whose tagged line yields 3. -/
theorem status_failure_amended_witness :
    getCurrentZ ["Grbl 1.1".data] = .error .timeout ∧
    (∃ l ∈ (["<Idle|WPos:1.000,2.000,3.000|FS:0,0>".data] : List (List Char)),
      (occursIn "WPos:".data l = true ∧ extractCoordZ "WPos:".data l = .ok 3) ∨
      (occursIn "WPos:".data l = false ∧ occursIn "MPos:".data l = true ∧
        extractCoordZ "MPos:".data l = .ok 3)) :=
  ⟨status_failure_amended.1 ["Grbl 1.1".data] (by decide),
   status_failure_amended.2.2.2 ["<Idle|WPos:1.000,2.000,3.000|FS:0,0>".data] 3 (by decide)⟩

/-- The logged observations of a re-query response contain no unlock
action. -/
theorem countP_noteList_unlock (rls : List (List Char)) :
    ((rls.filterMap
        (fun l2 => (parseStatus l2).map (fun q => GAction.note q.1))).countP isUnlock) = 0 := by
  rw [List.countP_eq_zero]
  intro a ha
  obtain ⟨l2, _, hmap⟩ := List.mem_filterMap.1 ha
  cases hq : parseStatus l2 with
  | none => rw [hq] at hmap; simp at hmap
  | some q =>
    rw [hq] at hmap
    simp only [Option.map] at hmap
    rw [Option.some_inj] at hmap
    subst hmap
    simp [isUnlock]

/-- The logged observations of a re-query response contain no re-query
action either. -/
theorem countP_noteList_requery (rls : List (List Char)) :
    ((rls.filterMap
        (fun l2 => (parseStatus l2).map (fun q => GAction.note q.1))).countP isRequery) = 0 := by
  rw [List.countP_eq_zero]
  intro a ha
  obtain ⟨l2, _, hmap⟩ := List.mem_filterMap.1 ha
  cases hq : parseStatus l2 with
  | none => rw [hq] at hmap; simp at hmap
  | some q =>
    rw [hq] at hmap
    simp only [Option.map] at hmap
    rw [Option.some_inj] at hmap
    subst hmap
    simp [isRequery]

/-- Unlock count of the handling of one status line: one if the line is an
Alarm report, zero otherwise. -/
theorem handle_unlock_count (ur rls : List (List Char)) (l : List Char) :
    ((alarmHandleLine ur rls l).countP isUnlock) = if statusIsAlarm l then 1 else 0 := by
  cases hq : parseStatus l with
  | none => simp [alarmHandleLine, statusIsAlarm, hq]
  | some q =>
    obtain ⟨st, x, y, z⟩ := q
    by_cases hst : st = "Alarm".data
    · by_cases hok : ur.any (fun r => occursIn "ok".data r)
      · simp [alarmHandleLine, statusIsAlarm, hq, hst, hok, List.countP_cons,
          isUnlock, isRequery, countP_noteList_unlock]
      · simp [alarmHandleLine, statusIsAlarm, hq, hst, hok, List.countP_cons, isUnlock]
    · simp [alarmHandleLine, statusIsAlarm, hq, hst]

/-- Re-query count of the handling of one status line: one exactly when the
line is an Alarm report and the unlock response carries an ok line. -/
theorem handle_requery_count (ur rls : List (List Char)) (l : List Char) :
    ((alarmHandleLine ur rls l).countP isRequery) =
      if statusIsAlarm l && ur.any (fun r => occursIn "ok".data r) then 1 else 0 := by
  cases hq : parseStatus l with
  | none => simp [alarmHandleLine, statusIsAlarm, hq]
  | some q =>
    obtain ⟨st, x, y, z⟩ := q
    by_cases hst : st = "Alarm".data
    · by_cases hok : ur.any (fun r => occursIn "ok".data r)
      · simp [alarmHandleLine, statusIsAlarm, hq, hst, hok, List.countP_cons,
          isUnlock, isRequery, countP_noteList_requery]
      · simp [alarmHandleLine, statusIsAlarm, hq, hst, hok, List.countP_cons, isRequery]
    · simp [alarmHandleLine, statusIsAlarm, hq, hst]

/-- Unfolding equation of the alarm-handling pass on a cons cell. -/
theorem alarmActions_cons (ur rls : List (List Char)) (l : List Char)
    (ls : List (List Char)) :
    alarmActions ur rls (l :: ls) =
      alarmHandleLine ur rls l ++ alarmActions ur rls ls := rfl

/-- A status-query response with no Alarm line triggers no protocol action
at all. -/
theorem alarmActions_eq_nil (ur rls : List (List Char)) :
    ∀ qls : List (List Char), qls.countP statusIsAlarm = 0 → alarmActions ur rls qls = [] := by
  intro qls
  induction qls with
  | nil => intro _; rfl
  | cons l ls ih =>
    intro h
    rw [List.countP_cons] at h
    by_cases hl : statusIsAlarm l
    · simp [hl] at h
    · have hls : ls.countP statusIsAlarm = 0 := by simpa [hl] using h
      have hnil : alarmHandleLine ur rls l = [] := by
        cases hq : parseStatus l with
        | none => simp [alarmHandleLine, hq]
        | some q =>
          obtain ⟨st, xx, yy, zz⟩ := q
          have hne : st ≠ "Alarm".data := by
            intro he
            exact hl (by simp [statusIsAlarm, hq, he])
          simp [alarmHandleLine, hq, hne]
      rw [alarmActions_cons, hnil, List.nil_append]
      exact ih hls

/-- Counterexample to claim C7 as stated: with a failed unlock
acknowledgement the client sends the single `$X` but performs no re-query
at all (not "exactly one re-query"); and a query response carrying two
Alarm status lines drives two automatic `$X` sends within the same
handling pass. -/
theorem alarm_unlock_counterexample :
    alarmActions ["error:3".data] [] ["<Alarm|MPos:0.000,0.000,0.000>".data] =
      [GAction.unlock] ∧
    ((alarmActions ["ok".data] ["<Alarm|MPos:0.000,0.000,0.000>".data]
        ["<Alarm|MPos:0.000,0.000,0.000>".data,
          "<Alarm|MPos:0.000,0.000,0.000>".data]).countP isUnlock) = 2 := by
  decide

/-- Claim C7 (amended): when the status-query response contains exactly one
Alarm status line, the client sends exactly one automatic `$X` unlock; it
re-queries exactly once if the unlock response contains an `ok` line and
not at all otherwise; and it never sends a second automatic unlock in the
same handling pass, whatever the re-queried response reports — including a
still-Alarm report. -/
theorem alarm_unlock_amended (ur rls : List (List Char)) :
    ∀ qls : List (List Char), qls.countP statusIsAlarm = 1 →
      ((alarmActions ur rls qls).countP isUnlock = 1 ∧
        (alarmActions ur rls qls).countP isRequery =
          (if ur.any (fun r => occursIn "ok".data r) then 1 else 0)) := by
  intro qls
  induction qls with
  | nil => intro h; simp at h
  | cons l ls ih =>
    intro h
    rw [List.countP_cons] at h
    by_cases hl : statusIsAlarm l
    · have hls : ls.countP statusIsAlarm = 0 := by
        simp only [hl, if_true] at h
        omega
      have hrest : alarmActions ur rls ls = [] := alarmActions_eq_nil ur rls ls hls
      rw [alarmActions_cons, List.countP_append, List.countP_append, hrest]
      constructor
      · rw [handle_unlock_count, if_pos hl]
        simp
      · rw [handle_requery_count]
        simp [hl]
    · have hls : ls.countP statusIsAlarm = 1 := by simpa [hl] using h
      have hnil : alarmHandleLine ur rls l = [] := by
        cases hq : parseStatus l with
        | none => simp [alarmHandleLine, hq]
        | some q =>
          obtain ⟨st, xx, yy, zz⟩ := q
          have hne : st ≠ "Alarm".data := by
            intro he
            exact hl (by simp [statusIsAlarm, hq, he])
          simp [alarmHandleLine, hq, hne]
      rw [alarmActions_cons, hnil, List.nil_append]
      exact ih hls

/-- Witness for C7 (amended): one Alarm line, an acknowledged unlock, and a
re-query that still reports Alarm — one unlock, one re-query, no second
unlock. -/
theorem alarm_unlock_amended_witness :
    ((alarmActions ["ok".data] ["<Alarm|MPos:0.000,0.000,0.000>".data]
        ["<Alarm|MPos:0.000,0.000,0.000>".data]).countP isUnlock) = 1 ∧
    ((alarmActions ["ok".data] ["<Alarm|MPos:0.000,0.000,0.000>".data]
        ["<Alarm|MPos:0.000,0.000,0.000>".data]).countP isRequery) =
      (if (["ok".data] : List (List Char)).any (fun r => occursIn "ok".data r)
        then 1 else 0) :=
  alarm_unlock_amended ["ok".data] ["<Alarm|MPos:0.000,0.000,0.000>".data]
    ["<Alarm|MPos:0.000,0.000,0.000>".data] (by decide)

/-- Acceptance of well-formed machine-frame status reports by the regex
model: a bracketed report with a non-empty word state, the `MPos:` tag and
three non-empty number-class groups separated by commas parses to exactly
those four groups, whatever ignored fields follow. -/
theorem parseStatus_accepts (st x y z rest : List Char)
    (hst : st ≠ []) (hstw : ∀ c ∈ st, isWordCh c = true)
    (hx : x ≠ []) (hxn : ∀ c ∈ x, isNumCh c = true)
    (hy : y ≠ []) (hyn : ∀ c ∈ y, isNumCh c = true)
    (hz : z ≠ []) (hzn : ∀ c ∈ z, isNumCh c = true)
    (hrest : rest = [] ∨ ∃ d t, rest = d :: t ∧ isNumCh d = false) :
    parseStatus ('<' :: (st ++ '|' ::
        ("MPos:".data ++ (x ++ ',' :: (y ++ ',' :: (z ++ rest)))))) =
      some (st, x, y, z) := by
  have hpipe : isWordCh '|' = false := by decide
  have hcomma : isNumCh ',' = false := by decide
  simp only [parseStatus]
  rw [takeWhile_stop hstw hpipe, dropWhile_stop hstw hpipe, isEmptyFalseOfNe hst]
  simp only [Bool.false_eq_true, if_false]
  rw [isPrefixOfAppendSelf]
  simp only [if_true]
  rw [show (5 : ℕ) = ("MPos:".data).length from by decide, dropLenAppend]
  rw [takeWhile_stop hxn hcomma, dropWhile_stop hxn hcomma, isEmptyFalseOfNe hx]
  simp only [Bool.false_eq_true, if_false]
  rw [takeWhile_stop hyn hcomma, dropWhile_stop hyn hcomma, isEmptyFalseOfNe hy]
  simp only [Bool.false_eq_true, if_false]
  rw [takeWhile_end hzn hrest, isEmptyFalseOfNe hz]
  simp only [Bool.false_eq_true, if_false]

/-- Counterexample to claim C4 as stated: the bracketed status parser
(the regex of `test_status_query`) does not accept work-frame reports —
it returns no match on the well-formed `WPos:` twin of the claim example;
and the `get_current_z` reader fails too on a well-formed work-frame
report that ends right after the third coordinate (the trailing `>` makes
`float("3.000>")` raise `ValueError`), so reports in either frame are not
universally parsed successfully. -/
theorem status_parse_counterexample :
    parseStatus "<Idle|WPos:1.000,2.000,3.000|FS:0,0>".data = none ∧
    getCurrentZ ["<Idle|WPos:1.000,2.000,3.000>".data] = .error .valueError := by
  decide

/-- Claim C4 (amended): the bracketed status parser accepts any report
`<STATE|` followed by the `MPos:` tag and three comma-separated numbers
(work-frame reports are not matched by it); the example machine-frame
line parses to state `Idle` with the three captured coordinates
converting to exactly (1, 2, 3); and the Z-position reader of
`get_current_z` successfully parses the example status line in both the
machine (`MPos:`) and the work (`WPos:`) frame, relying on the
`|`-separated field that follows the coordinates. -/
theorem status_parse_spec :
    (∀ st x y z rest : List Char, st ≠ [] → (∀ c ∈ st, isWordCh c = true) →
      x ≠ [] → (∀ c ∈ x, isNumCh c = true) →
      y ≠ [] → (∀ c ∈ y, isNumCh c = true) →
      z ≠ [] → (∀ c ∈ z, isNumCh c = true) →
      (rest = [] ∨ ∃ d t, rest = d :: t ∧ isNumCh d = false) →
      parseStatus ('<' :: (st ++ '|' ::
          ("MPos:".data ++ (x ++ ',' :: (y ++ ',' :: (z ++ rest)))))) =
        some (st, x, y, z)) ∧
    (parseStatus "<Idle|MPos:1.000,2.000,3.000|FS:0,0>".data =
        some ("Idle".data, "1.000".data, "2.000".data, "3.000".data) ∧
      pyFloat "1.000".data = some 1 ∧ pyFloat "2.000".data = some 2 ∧
      pyFloat "3.000".data = some 3) ∧
    getCurrentZ ["<Idle|MPos:1.000,2.000,3.000|FS:0,0>".data] = .ok 3 ∧
    getCurrentZ ["<Idle|WPos:1.000,2.000,3.000|FS:0,0>".data] = .ok 3 :=
  ⟨parseStatus_accepts, by decide, by decide, by decide⟩

/-- Witness for C4: the acceptance theorem applied to the concrete report
`<Run|MPos:-1.5,0,10.875|FS:0,0>`. -/
theorem status_parse_spec_witness :
    parseStatus ('<' :: ("Run".data ++ '|' ::
        ("MPos:".data ++ ("-1.5".data ++ ',' ::
          ("0".data ++ ',' :: ("10.875".data ++ "|FS:0,0>".data)))))) =
      some ("Run".data, "-1.5".data, "0".data, "10.875".data) :=
  status_parse_spec.1 "Run".data "-1.5".data "0".data "10.875".data "|FS:0,0>".data
    (by decide) (by decide) (by decide) (by decide) (by decide) (by decide)
    (by decide) (by decide)
    (Or.inr ⟨'|', "FS:0,0>".data, by decide, by decide⟩)

end Grbl
